import Mathlib

set_option maxRecDepth 8192

/-!
Verification development for the kgcnn repository (graph neural network
library with chemistry dataset loaders).  The definitions below are shallow
embeddings of the Python source files `kgcnn/ops/models.py`,
`kgcnn/data/qm.py`, `kgcnn/data/serial.py` and `kgcnn/literature/Megnet.py`.
Helpers of the repository that are imported by those files but whose source
is not available (e.g. `kgcnn.utils.adj.add_edges_reverse_indices`,
`kgcnn.mol.convert.read_xyz_file`) are modelled from the specification and
marked as such in their doc comments.
-/

namespace KGCNN

/-- Values stored in a Python-style configuration dictionary.  Nested
dictionaries are included because model configs are nested mappings
(`models.py` merges dicts whose values may themselves be dicts). -/
inductive Value where
  | nat (n : Nat)
  | str (s : String)
  | dict (entries : List (String × Value))

/-- A Python dict with values of type `α`, as an insertion-ordered list of
key/value pairs.  Real Python dicts have unique keys; theorems carry that
as a `Nodup` hypothesis on the keys where it matters. -/
abbrev DictOf (α : Type) := List (String × α)

/-- Python `d[k] = v`: replace the value in place if the key is present
(keeping insertion order), otherwise append the new pair at the end. -/
def setKey {α : Type} : DictOf α → String → α → DictOf α
  | [], k, v => [(k, v)]
  | (k', v') :: rest, k, v =>
      if k' = k then (k, v) :: rest else (k', v') :: setKey rest k v

/-- Python `out.update(d)`: iterate the items of `d` in order and set each
key/value pair into `out`. -/
def dictUpdate {α : Type} (out d : DictOf α) : DictOf α :=
  d.foldl (fun o kv => setKey o kv.1 kv.2) out

/-- Python `d[k]` lookup (first matching key; keys of a real dict are
unique, so this is the unique binding). -/
def lookupKey {α : Type} : DictOf α → String → Option α
  | [], _ => none
  | (k', v') :: rest, k => if k' = k then some v' else lookupKey rest k

/-- The keys of a dict, in insertion order. -/
def keysOf {α : Type} (d : DictOf α) : List String := d.map Prod.fst

/-- Configuration dictionary with possibly nested values. -/
abbrev Dict := DictOf Value

/-- `update_model_args` from `kgcnn/ops/models.py` (lines 102-119):
start from an empty dict `out`, replace a `None` argument by `{}`,
then `out.update(default_args)` and `out.update(user_args)`. -/
def update_model_args (default_args : Option Dict := none)
    (user_args : Option Dict := none) : Dict :=
  let d := default_args.getD []
  let u := user_args.getD []
  dictUpdate (dictUpdate [] d) u

theorem setKey_of_not_mem {α : Type} (d : DictOf α) (k : String) (v : α)
    (h : k ∉ keysOf d) : setKey d k v = d ++ [(k, v)] := by
  induction d with
  | nil => rfl
  | cons kv rest ih =>
      obtain ⟨k', v'⟩ := kv
      simp only [keysOf, List.map_cons, List.mem_cons] at h
      push_neg at h
      simp only [setKey, if_neg (Ne.symm h.1), List.cons_append, List.cons.injEq,
        true_and]
      exact ih h.2

theorem dictUpdate_nil {α : Type} (out : DictOf α) : dictUpdate out [] = out := rfl

theorem dictUpdate_cons {α : Type} (out : DictOf α) (k : String) (v : α)
    (d : DictOf α) :
    dictUpdate out ((k, v) :: d) = dictUpdate (setKey out k v) d := rfl

theorem dictUpdate_eq_append {α : Type} (d out : DictOf α)
    (h : (keysOf (out ++ d)).Nodup) : dictUpdate out d = out ++ d := by
  induction d generalizing out with
  | nil => simp [dictUpdate_nil]
  | cons kv rest ih =>
      obtain ⟨k, v⟩ := kv
      have hk : k ∉ keysOf out := by
        intro hmem
        have : ¬ (k ∈ keysOf ((k, v) :: rest)) := by
          have hd := (List.nodup_append.mp (by simpa [keysOf] using h)).2.2
          exact fun hc => hd hmem hc
        exact this (by simp [keysOf])
      rw [dictUpdate_cons, setKey_of_not_mem out k v hk]
      have h' : (keysOf ((out ++ [(k, v)]) ++ rest)).Nodup := by
        simpa [keysOf, List.append_assoc] using h
      rw [ih (out ++ [(k, v)]) h']
      simp

theorem lookupKey_setKey {α : Type} (d : DictOf α) (k k' : String) (v : α) :
    lookupKey (setKey d k v) k' = if k = k' then some v else lookupKey d k' := by
  induction d with
  | nil => simp [setKey, lookupKey]
  | cons kv rest ih =>
      obtain ⟨k0, v0⟩ := kv
      simp only [setKey]
      by_cases h0 : k0 = k
      · subst h0
        simp only [if_pos rfl, lookupKey]
        by_cases h1 : k0 = k' <;> simp [h1]
      · simp only [if_neg h0, lookupKey, ih]
        by_cases h1 : k0 = k'
        · subst h1
          simp [Ne.symm h0]
        · simp [h1]

theorem lookupKey_dictUpdate_not_mem {α : Type} (d out : DictOf α) (k : String)
    (h : k ∉ keysOf d) : lookupKey (dictUpdate out d) k = lookupKey out k := by
  induction d generalizing out with
  | nil => rfl
  | cons kv rest ih =>
      obtain ⟨k0, v0⟩ := kv
      simp only [keysOf, List.map_cons, List.mem_cons] at h
      push_neg at h
      rw [dictUpdate_cons, ih _ h.2, lookupKey_setKey, if_neg (Ne.symm h.1)]

theorem lookupKey_dictUpdate_mem {α : Type} (u out : DictOf α) (k : String)
    (hu : (keysOf u).Nodup) (hk : k ∈ keysOf u) :
    lookupKey (dictUpdate out u) k = lookupKey u k := by
  induction u generalizing out with
  | nil => cases hk
  | cons kv rest ih =>
      obtain ⟨k0, v0⟩ := kv
      have hu' : k0 ∉ List.map Prod.fst rest ∧ (List.map Prod.fst rest).Nodup := by
        simpa [keysOf, List.nodup_cons] using hu
      have hnd : (keysOf rest).Nodup := hu'.2
      by_cases hmem : k ∈ keysOf rest
      · have hne : k0 ≠ k := by
          intro hc
          subst hc
          exact hu'.1 (by simpa [keysOf] using hmem)
        rw [dictUpdate_cons, ih _ hnd hmem]
        simp [lookupKey, hne]
      · have hk0 : k0 = k := by
          have hcase : k = k0 ∨ k ∈ keysOf rest := by simpa [keysOf] using hk
          rcases hcase with h | h
          · exact h.symm
          · exact absurd h hmem
        subst hk0
        rw [dictUpdate_cons, lookupKey_dictUpdate_not_mem _ _ _ hmem,
          lookupKey_setKey]
        simp [lookupKey]

/-- C4: `update_model_args(default, None)` equals `default`,
`update_model_args(None, override)` equals `override`, and for every key `k`
of `override`, the merged dict maps `k` to `override[k]`. -/
theorem update_model_args_identity_override (d u : Dict)
    (hd : (keysOf d).Nodup) (hu : (keysOf u).Nodup) :
    update_model_args (some d) none = d ∧
    update_model_args none (some u) = u ∧
    ∀ k, k ∈ keysOf u →
      lookupKey (update_model_args (some d) (some u)) k = lookupKey u k := by
  refine ⟨?_, ?_, ?_⟩
  · show dictUpdate (dictUpdate [] d) [] = d
    rw [dictUpdate_nil, dictUpdate_eq_append d [] (by simpa using hd)]
    simp
  · show dictUpdate (dictUpdate [] []) u = u
    rw [dictUpdate_nil, dictUpdate_eq_append u [] (by simpa using hu)]
    simp
  · intro k hk
    exact lookupKey_dictUpdate_mem u _ k hu hk

/-- Instantiation of `update_model_args_identity_override` at concrete
dictionaries. -/
theorem update_model_args_identity_override_witness :
    update_model_args (some [("units", Value.nat 64)]) none
      = [("units", Value.nat 64)] ∧
    update_model_args none (some [("units", Value.nat 32), ("depth", Value.nat 3)])
      = [("units", Value.nat 32), ("depth", Value.nat 3)] ∧
    lookupKey (update_model_args (some [("units", Value.nat 64)])
        (some [("units", Value.nat 32), ("depth", Value.nat 3)])) "units"
      = lookupKey [("units", Value.nat 32), ("depth", Value.nat 3)] "units" := by
  refine ⟨?_, ?_, ?_⟩
  · exact (update_model_args_identity_override
      [("units", Value.nat 64)] [("units", Value.nat 32), ("depth", Value.nat 3)]
      (by decide) (by decide)).1
  · exact (update_model_args_identity_override
      [("units", Value.nat 64)] [("units", Value.nat 32), ("depth", Value.nat 3)]
      (by decide) (by decide)).2.1
  · exact (update_model_args_identity_override
      [("units", Value.nat 64)] [("units", Value.nat 32), ("depth", Value.nat 3)]
      (by decide) (by decide)).2.2 "units" (by decide)

/-! ### Heap model of `update_model_args` (allocation and mutation behaviour)

`update_model_args` builds `out = {}` and calls `out.update(...)` twice;
`dict.update` mutates only its receiver and copies values shallowly (a value
that is itself a dict is copied as a reference).  The heap model below makes
those effects observable. -/

/-- A value stored in a heap-allocated Python dict: a primitive, or a
reference to another heap-allocated dict (nested dicts are shared by
reference). -/
inductive HValue where
  | prim (n : Nat)
  | ref (a : Nat)
deriving DecidableEq, Repr

/-- A heap of dict objects; addresses `0 .. size-1` are allocated. -/
structure Heap where
  size : Nat
  mem : Nat → DictOf HValue

/-- Read the dict object at address `a`. -/
def Heap.get (h : Heap) (a : Nat) : DictOf HValue := h.mem a

/-- Overwrite the dict object at address `a`. -/
def Heap.write (h : Heap) (a : Nat) (d : DictOf HValue) : Heap :=
  { h with mem := fun a' => if a' = a then d else h.mem a' }

/-- Allocate a fresh dict object, returning the new heap and its address. -/
def Heap.alloc (h : Heap) (d : DictOf HValue) : Heap × Nat :=
  ({ size := h.size + 1,
     mem := fun a' => if a' = h.size then d else h.mem a' }, h.size)

/-- `update_model_args` from `kgcnn/ops/models.py` at the heap level:
`out = {}` allocates a fresh object; each `out.update(args)` reads the
argument object and writes only to `out`; a `None` argument stands for no
heap object and contributes `{}`. -/
def update_model_args_heap (h : Heap) (default_args user_args : Option Nat) :
    Heap × Nat :=
  let h1 := (h.alloc []).1
  let out := (h.alloc []).2
  let d := match default_args with
    | some a => h1.get a
    | none => []
  let h2 := h1.write out (dictUpdate (h1.get out) d)
  let u := match user_args with
    | some a => h2.get a
    | none => []
  let h3 := h2.write out (dictUpdate (h2.get out) u)
  (h3, out)

theorem mem_keys_of_lookupKey {α : Type} {d : DictOf α} {k : String} {v : α}
    (h : lookupKey d k = some v) : k ∈ keysOf d := by
  induction d with
  | nil => simp [lookupKey] at h
  | cons kv rest ih =>
      obtain ⟨k0, v0⟩ := kv
      by_cases h0 : k0 = k
      · simp [keysOf, h0]
      · simp only [lookupKey, if_neg h0] at h
        simpa [keysOf] using Or.inr (by simpa [keysOf] using ih h)

theorem update_model_args_heap_get_other (h : Heap) (da ua : Option Nat)
    (a : Nat) (ha : a ≠ h.size) :
    (update_model_args_heap h da ua).1.get a = h.get a := by
  simp [update_model_args_heap, Heap.get, Heap.write, Heap.alloc, ha]

theorem update_model_args_heap_get_out (h : Heap) (da ua : Nat)
    (hda : da ≠ h.size) (hua : ua ≠ h.size) :
    (update_model_args_heap h (some da) (some ua)).1.get h.size
      = dictUpdate (dictUpdate [] (h.get da)) (h.get ua) := by
  simp [update_model_args_heap, Heap.get, Heap.write, Heap.alloc, hda, hua]

/-- C5: `update_model_args` allocates a fresh output dict, never mutates any
pre-existing heap object (in particular neither input), and on every key of
the override dict the override's stored value wins wholesale — including
when both stored values are references to nested dicts, whose contents stay
untouched (shallow merge, no deep merge). -/
theorem update_model_args_fresh_no_mutation_shallow (h : Heap) (da ua : Nat)
    (hda : da < h.size) (hua : ua < h.size)
    (huk : (keysOf (h.get ua)).Nodup) :
    (update_model_args_heap h (some da) (some ua)).2 = h.size ∧
    (∀ a, a < h.size →
      (update_model_args_heap h (some da) (some ua)).1.get a = h.get a) ∧
    (∀ k, k ∈ keysOf (h.get ua) →
      lookupKey ((update_model_args_heap h (some da) (some ua)).1.get h.size) k
        = lookupKey (h.get ua) k) ∧
    (∀ k a1 a2, lookupKey (h.get da) k = some (HValue.ref a1) →
      lookupKey (h.get ua) k = some (HValue.ref a2) → a2 < h.size →
      lookupKey ((update_model_args_heap h (some da) (some ua)).1.get h.size) k
          = some (HValue.ref a2) ∧
      (update_model_args_heap h (some da) (some ua)).1.get a2 = h.get a2) := by
  have hda' : da ≠ h.size := Nat.ne_of_lt hda
  have hua' : ua ≠ h.size := Nat.ne_of_lt hua
  have hout := update_model_args_heap_get_out h da ua hda' hua'
  have hover : ∀ k, k ∈ keysOf (h.get ua) →
      lookupKey ((update_model_args_heap h (some da) (some ua)).1.get h.size) k
        = lookupKey (h.get ua) k := by
    intro k hk
    rw [hout]
    exact lookupKey_dictUpdate_mem _ _ _ huk hk
  refine ⟨rfl, ?_, hover, ?_⟩
  · intro a ha
    exact update_model_args_heap_get_other h _ _ a (Nat.ne_of_lt ha)
  · intro k a1 a2 _ hu2 ha2
    refine ⟨?_, ?_⟩
    · rw [hover k (mem_keys_of_lookupKey hu2)]
      exact hu2
    · exact update_model_args_heap_get_other h _ _ a2 (Nat.ne_of_lt ha2)

/-- Instantiation of `update_model_args_fresh_no_mutation_shallow` on a
concrete three-object heap whose default and override dicts both hold a
reference to the nested dict at address 2. -/
theorem update_model_args_fresh_no_mutation_shallow_witness :
    (update_model_args_heap
        ⟨3, fun a => if a = 0 then [("x", HValue.prim 1), ("n", HValue.ref 2)]
          else if a = 1 then [("x", HValue.prim 5), ("n", HValue.ref 2)]
          else [("z", HValue.prim 9)]⟩ (some 0) (some 1)).2 = 3 ∧
    (update_model_args_heap
        ⟨3, fun a => if a = 0 then [("x", HValue.prim 1), ("n", HValue.ref 2)]
          else if a = 1 then [("x", HValue.prim 5), ("n", HValue.ref 2)]
          else [("z", HValue.prim 9)]⟩ (some 0) (some 1)).1.get 0
      = Heap.get ⟨3, fun a => if a = 0 then [("x", HValue.prim 1), ("n", HValue.ref 2)]
          else if a = 1 then [("x", HValue.prim 5), ("n", HValue.ref 2)]
          else [("z", HValue.prim 9)]⟩ 0 ∧
    lookupKey ((update_model_args_heap
        ⟨3, fun a => if a = 0 then [("x", HValue.prim 1), ("n", HValue.ref 2)]
          else if a = 1 then [("x", HValue.prim 5), ("n", HValue.ref 2)]
          else [("z", HValue.prim 9)]⟩ (some 0) (some 1)).1.get 3) "n"
      = some (HValue.ref 2) ∧
    (update_model_args_heap
        ⟨3, fun a => if a = 0 then [("x", HValue.prim 1), ("n", HValue.ref 2)]
          else if a = 1 then [("x", HValue.prim 5), ("n", HValue.ref 2)]
          else [("z", HValue.prim 9)]⟩ (some 0) (some 1)).1.get 2
      = Heap.get ⟨3, fun a => if a = 0 then [("x", HValue.prim 1), ("n", HValue.ref 2)]
          else if a = 1 then [("x", HValue.prim 5), ("n", HValue.ref 2)]
          else [("z", HValue.prim 9)]⟩ 2 := by
  have hmain := update_model_args_fresh_no_mutation_shallow
    ⟨3, fun a => if a = 0 then [("x", HValue.prim 1), ("n", HValue.ref 2)]
      else if a = 1 then [("x", HValue.prim 5), ("n", HValue.ref 2)]
      else [("z", HValue.prim 9)]⟩ 0 1 (by decide) (by decide) (by decide)
  have hnested := hmain.2.2.2 "n" 2 2 (by decide) (by decide) (by decide)
  exact ⟨hmain.1, hmain.2.1 0 (by decide), hnested.1, hnested.2⟩

/-! ### The element-symbol table of `QMDataset` (`kgcnn/data/qm.py`) -/

/-- `QMDataset.global_proton_dict` from `kgcnn/data/qm.py` (lines 22-35):
the fixed element-symbol → atomic-number lookup table. -/
def global_proton_dict : DictOf Nat :=
  [("H", 1), ("He", 2), ("Li", 3), ("Be", 4), ("B", 5), ("C", 6), ("N", 7),
   ("O", 8), ("F", 9), ("Ne", 10), ("Na", 11), ("Mg", 12), ("Al", 13),
   ("Si", 14), ("P", 15), ("S", 16), ("Cl", 17), ("Ar", 18), ("K", 19),
   ("Ca", 20), ("Sc", 21), ("Ti", 22), ("V", 23), ("Cr", 24), ("Mn", 25),
   ("Fe", 26), ("Co", 27), ("Ni", 28), ("Cu", 29), ("Zn", 30), ("Ga", 31),
   ("Ge", 32), ("As", 33), ("Se", 34), ("Br", 35), ("Kr", 36), ("Rb", 37),
   ("Sr", 38), ("Y", 39), ("Zr", 40), ("Nb", 41), ("Mo", 42), ("Tc", 43),
   ("Ru", 44), ("Rh", 45), ("Pd", 46), ("Ag", 47), ("Cd", 48), ("In", 49),
   ("Sn", 50), ("Sb", 51), ("Te", 52), ("I", 53), ("Xe", 54), ("Cs", 55),
   ("Ba", 56), ("La", 57), ("Ce", 58), ("Pr", 59), ("Nd", 60), ("Pm", 61),
   ("Sm", 62), ("Eu", 63), ("Gd", 64), ("Tb", 65), ("Dy", 66), ("Ho", 67),
   ("Er", 68), ("Tm", 69), ("Yb", 70), ("Lu", 71), ("Hf", 72), ("Ta", 73),
   ("W", 74), ("Re", 75), ("Os", 76), ("Ir", 77), ("Pt", 78), ("Au", 79),
   ("Hg", 80), ("Tl", 81), ("Pb", 82), ("Bi", 83), ("Po", 84), ("At", 85),
   ("Rn", 86), ("Fr", 87), ("Ra", 88), ("Ac", 89), ("Th", 90), ("Pa", 91),
   ("U", 92), ("Np", 93), ("Pu", 94), ("Am", 95), ("Cm", 96), ("Bk", 97),
   ("Cf", 98), ("Es", 99), ("Fm", 100), ("Md", 101), ("No", 102), ("Lr", 103),
   ("Rf", 104), ("Db", 105), ("Sg", 106), ("Bh", 107), ("Hs", 108),
   ("Mt", 109), ("Ds", 110), ("Rg", 111), ("Cn", 112), ("Nh", 113),
   ("Fl", 114), ("Mc", 115), ("Lv", 116), ("Ts", 117), ("Og", 118),
   ("Uue", 119)]

/-- `QMDataset.inverse_global_proton_dict` from `kgcnn/data/qm.py` (line 36):
`{value: key for key, value in global_proton_dict.items()}`. -/
def inverse_global_proton_dict : List (Nat × String) :=
  global_proton_dict.map (fun p => (p.2, p.1))

/-- Boolean round-trip check for a single atomic number through the inverse
table and back through the symbol table. -/
def protonRoundTrip (n : Nat) : Bool :=
  match List.lookup n inverse_global_proton_dict with
  | some s => lookupKey global_proton_dict s == some n
  | none => false

/-- C7: the symbol table is a bijection between its symbol keys and the
atomic numbers 1..119, and the inverse table round-trips in both
directions. -/
theorem global_proton_dict_bijective_inverse :
    (keysOf global_proton_dict).Nodup ∧
    global_proton_dict.map Prod.snd = List.range' 1 119 ∧
    (∀ p ∈ global_proton_dict,
      List.lookup p.2 inverse_global_proton_dict = some p.1) ∧
    (∀ n, 1 ≤ n → n ≤ 119 →
      ∃ s, List.lookup n inverse_global_proton_dict = some s ∧
        lookupKey global_proton_dict s = some n) := by
  refine ⟨by decide, by decide, by decide, ?_⟩
  have hrt : ∀ m ∈ List.range' 1 119, protonRoundTrip m = true := by decide
  intro n h1 h2
  have hmem : n ∈ List.range' 1 119 := by
    simp only [List.mem_range'_1]
    omega
  have hn := hrt n hmem
  unfold protonRoundTrip at hn
  cases hl : List.lookup n inverse_global_proton_dict with
  | none => rw [hl] at hn; simp at hn
  | some s =>
      rw [hl] at hn
      exact ⟨s, rfl, by simpa using hn⟩

/-- Instantiation of `global_proton_dict_bijective_inverse` at hydrogen and
at atomic number 119. -/
theorem global_proton_dict_bijective_inverse_witness :
    List.lookup 1 inverse_global_proton_dict = some "H" ∧
    (∃ s, List.lookup 119 inverse_global_proton_dict = some s ∧
      lookupKey global_proton_dict s = some 119) :=
  ⟨global_proton_dict_bijective_inverse.2.2.1 ("H", 1) (by decide),
   global_proton_dict_bijective_inverse.2.2.2 119 (by decide) (by decide)⟩

/-! ### Bond records and edge assembly (`QMDataset.read_in_memory`) -/

/-- One bond record of a mol-block bond table as parsed by `parse_mol_str`:
1-based atom indices `a`, `b` (columns `x[:, :2]` in `read_in_memory`) and
the bond order (column `x[:, 2:]`). -/
structure Bond where
  a : Int
  b : Int
  order : Int
deriving DecidableEq, Repr

/-- Modelled from the spec: `add_edges_reverse_indices` from
`kgcnn.utils.adj`, imported by `kgcnn/data/qm.py` but not among the given
sources.  Spec §4.1: "for each undirected bond (a,b,order), emit both (a,b)
and (b,a) as directed edges, attaching the same attribute (order) to each;
resulting edge-index array has exactly 2× the undirected bond count rows
(unless a bond is a self-loop...)" — the two directions of a self-loop
coincide, so no flipped copy is appended for it. -/
def add_edges_reverse_indices (bonds : List Bond) : List ((Int × Int) × Int) :=
  bonds.map (fun bd => ((bd.a, bd.b), bd.order))
    ++ (bonds.filter (fun bd => bd.a != bd.b)).map
        (fun bd => ((bd.b, bd.a), bd.order))

/-- The per-molecule edge assembly of `QMDataset.read_in_memory`
(`kgcnn/data/qm.py` lines 128-131): symmetrize the bond table with
`add_edges_reverse_indices`, then shift the 1-based file indices to 0-based
(`temp[0] - 1`). -/
def assembleEdges (bonds : List Bond) : List ((Int × Int) × Int) :=
  (add_edges_reverse_indices bonds).map (fun e => ((e.1.1 - 1, e.1.2 - 1), e.2))

theorem mem_assembleEdges (bonds : List Bond) (p : Int × Int) (v : Int) :
    (p, v) ∈ assembleEdges bonds ↔
      (∃ bd ∈ bonds, p = (bd.a - 1, bd.b - 1) ∧ v = bd.order) ∨
      (∃ bd ∈ bonds, bd.a ≠ bd.b ∧ p = (bd.b - 1, bd.a - 1) ∧ v = bd.order) := by
  simp only [assembleEdges, add_edges_reverse_indices, List.map_append,
    List.mem_append, List.map_map, List.mem_map, Function.comp_def,
    List.mem_filter, bne_iff_ne, Prod.mk.injEq]
  constructor
  · rintro (⟨bd, hbd, h1, h2⟩ | ⟨bd, ⟨hbd, hne⟩, h1, h2⟩)
    · exact Or.inl ⟨bd, hbd, h1.symm, h2.symm⟩
    · exact Or.inr ⟨bd, hbd, hne, h1.symm, h2.symm⟩
  · rintro (⟨bd, hbd, h1, h2⟩ | ⟨bd, hbd, hne, h1, h2⟩)
    · exact Or.inl ⟨bd, hbd, h1.symm, h2.symm⟩
    · exact Or.inr ⟨bd, ⟨hbd, hne⟩, h1.symm, h2.symm⟩

/-- C1 (amended): provided no bond record is a self-loop, the assembled
edge-index list has exactly twice as many rows as there are bond records;
unconditionally, every stored directed edge has its reverse stored with the
same attribute value, and every stored edge arises from a file bond record
with both indices shifted from 1-based to 0-based. -/
theorem assembleEdges_reverse_symmetric_zero_based (bonds : List Bond)
    (hs : ∀ bd ∈ bonds, bd.a ≠ bd.b) :
    (assembleEdges bonds).length = 2 * bonds.length ∧
    (∀ p v, (p, v) ∈ assembleEdges bonds →
      ((p.2, p.1), v) ∈ assembleEdges bonds) ∧
    (∀ p v, (p, v) ∈ assembleEdges bonds →
      ∃ bd ∈ bonds, (p = (bd.a - 1, bd.b - 1) ∨ p = (bd.b - 1, bd.a - 1)) ∧
        v = bd.order) := by
  refine ⟨?_, ?_, ?_⟩
  · simp only [assembleEdges, add_edges_reverse_indices, List.length_map,
      List.length_append]
    rw [List.filter_eq_self.mpr (fun bd hbd => by simpa using hs bd hbd)]
    omega
  · intro p v h
    rcases (mem_assembleEdges bonds p v).mp h with
      ⟨bd, hbd, h1, h2⟩ | ⟨bd, hbd, hne, h1, h2⟩
    · by_cases hab : bd.a = bd.b
      · subst h1
        exact (mem_assembleEdges bonds _ v).mpr
          (Or.inl ⟨bd, hbd, by rw [hab], h2⟩)
      · subst h1
        exact (mem_assembleEdges bonds _ v).mpr
          (Or.inr ⟨bd, hbd, hab, rfl, h2⟩)
    · subst h1
      exact (mem_assembleEdges bonds _ v).mpr (Or.inl ⟨bd, hbd, rfl, h2⟩)
  · intro p v h
    rcases (mem_assembleEdges bonds p v).mp h with
      ⟨bd, hbd, h1, h2⟩ | ⟨bd, hbd, _, h1, h2⟩
    · exact ⟨bd, hbd, Or.inl h1, h2⟩
    · exact ⟨bd, hbd, Or.inr h1, h2⟩

/-- C1, as stated, is false at a self-loop bond record: for the single bond
(1,1) of order 1 the assembled edge-index list has 1 row, not 2. -/
theorem assembleEdges_selfloop_counterexample :
    (assembleEdges [⟨1, 1, 1⟩]).length ≠ 2 * ([⟨1, 1, 1⟩] : List Bond).length := by
  decide

/-- Instantiation of `assembleEdges_reverse_symmetric_zero_based` on a
concrete two-bond molecule. -/
theorem assembleEdges_reverse_symmetric_zero_based_witness :
    (assembleEdges [⟨1, 2, 1⟩, ⟨2, 3, 2⟩]).length
      = 2 * ([⟨1, 2, 1⟩, ⟨2, 3, 2⟩] : List Bond).length ∧
    (((1 : Int), (0 : Int)), (1 : Int)) ∈ assembleEdges [⟨1, 2, 1⟩, ⟨2, 3, 2⟩] ∧
    (∃ bd ∈ ([⟨1, 2, 1⟩, ⟨2, 3, 2⟩] : List Bond),
      (((0 : Int), (1 : Int)) = (bd.a - 1, bd.b - 1) ∨
        ((0 : Int), (1 : Int)) = (bd.b - 1, bd.a - 1)) ∧ (1 : Int) = bd.order) := by
  have h := assembleEdges_reverse_symmetric_zero_based
    [⟨1, 2, 1⟩, ⟨2, 3, 2⟩] (by decide)
  exact ⟨h.1, h.2.1 (0, 1) 1 (by decide), h.2.2 (0, 1) 1 (by decide)⟩

/-! ### `QMDataset.read_in_memory` (`kgcnn/data/qm.py` lines 97-135) -/

/-- Coordinates of one atom (`x[1:4]` of a parsed xyz line).  The float
coordinates are pass-through data — `read_in_memory` only slices and stores
them — and are modelled as rationals. -/
abbrev Coord := Rat × Rat × Rat

/-- One parsed atom line of the xyz file: `x[0]` is the element symbol,
`x[1:4]` the coordinates. -/
structure XYZAtom where
  symbol : String
  coord : Coord

/-- The files visible to `QMDataset.read_in_memory`.  `xyzContent` is the
parsed content of the xyz file (modelled from the spec for
`read_xyz_file`, §6: atom lines grouped per molecule; the reader itself is
not among the given sources).  `sdfFile` is the derived sdf file: `none`
when `os.path.exists(mol_path)` is false, `some none` when the file exists
but `dummy_load_sdf_file` returns `None`, and `some (some bs)` for the
per-molecule bond tables extracted by `parse_mol_str(x)[5]` (both helpers
modelled from the spec for the mol-block bond block). -/
structure QMFileSystem where
  xyzContent : List (List XYZAtom)
  sdfFile : Option (Option (List (List Bond)))

/-- The per-graph array fields of a `QMDataset` instance that
`read_in_memory` assigns, all unset on a fresh instance, plus the surfaced
warnings. -/
structure QMDataRecord where
  length : Option Nat := none
  node_symbol : Option (List (List String)) := none
  node_coordinates : Option (List (List Coord)) := none
  node_number : Option (List (List Nat)) := none
  edge_indices : Option (List (List (Int × Int))) := none
  edge_attributes : Option (List (List Int)) := none
  warnings : List String := []

/-- `self.global_proton_dict[x[0]]`: a Python dict subscript raises
`KeyError` on a missing key. -/
def protonOf (s : String) : Except String Nat :=
  match lookupKey global_proton_dict s with
  | some n => Except.ok n
  | none => Except.error ("KeyError: " ++ s)

/-- `QMDataset.read_in_memory`: store length, symbols, coordinates and
atomic numbers from the xyz file; if the sdf file does not exist, print a
warning and return; otherwise, if `dummy_load_sdf_file` yields a mol list,
assemble the symmetrized 0-based edge arrays. -/
def read_in_memory (fs : QMFileSystem) (ds : QMDataRecord) :
    Except String QMDataRecord :=
  match fs.xyzContent.mapM (fun y => y.mapM (fun x => protonOf x.symbol)) with
  | Except.error e => Except.error e
  | Except.ok nodes =>
      let xyz_list := fs.xyzContent
      let symbol := xyz_list.map (fun y => y.map (fun x => x.symbol))
      let coords := xyz_list.map (fun y => y.map (fun x => x.coord))
      let ds := { ds with
        length := some xyz_list.length
        node_coordinates := some coords
        node_symbol := some symbol
        node_number := some nodes }
      match fs.sdfFile with
      | none =>
          Except.ok { ds with warnings := ds.warnings ++
            ["WARNING:kgcnn: Can not load sdf-file for dataset"] }
      | some none => Except.ok ds
      | some (some bond_info) =>
          let assembled := bond_info.map assembleEdges
          Except.ok { ds with
            edge_indices := some (assembled.map (fun es => es.map Prod.fst))
            edge_attributes := some (assembled.map (fun es => es.map Prod.snd)) }

/-- C8: when the derived sdf file does not exist, `read_in_memory` on a
fresh instance returns normally (never raises because of the missing file),
with length, symbols, coordinates and atomic numbers set from the xyz file,
the edge fields left unset, and a warning surfaced. -/
theorem read_in_memory_missing_sdf (fs : QMFileSystem) (ns : List (List Nat))
    (hsdf : fs.sdfFile = none)
    (hns : fs.xyzContent.mapM (fun y => y.mapM (fun x => protonOf x.symbol))
      = Except.ok ns) :
    ∃ ds', read_in_memory fs {} = Except.ok ds' ∧
      ds'.length = some fs.xyzContent.length ∧
      ds'.node_symbol = some (fs.xyzContent.map (fun y => y.map (fun x => x.symbol))) ∧
      ds'.node_coordinates = some (fs.xyzContent.map (fun y => y.map (fun x => x.coord))) ∧
      ds'.node_number = some ns ∧
      ds'.edge_indices = none ∧
      ds'.edge_attributes = none ∧
      "WARNING:kgcnn: Can not load sdf-file for dataset" ∈ ds'.warnings := by
  refine ⟨{ length := some fs.xyzContent.length
            node_symbol := some (fs.xyzContent.map (fun y => y.map (fun x => x.symbol)))
            node_coordinates := some (fs.xyzContent.map (fun y => y.map (fun x => x.coord)))
            node_number := some ns
            edge_indices := none
            edge_attributes := none
            warnings := ["WARNING:kgcnn: Can not load sdf-file for dataset"] },
    ?_, rfl, rfl, rfl, rfl, rfl, rfl, by simp⟩
  unfold read_in_memory
  rw [hns, hsdf]
  rfl

/-- Instantiation of `read_in_memory_missing_sdf` on a single hydrogen atom
with no sdf file. -/
theorem read_in_memory_missing_sdf_witness :
    ∃ ds', read_in_memory ⟨[[⟨"H", (0, 0, 0)⟩]], none⟩ {} = Except.ok ds' ∧
      ds'.length = some 1 ∧
      ds'.node_symbol = some [["H"]] ∧
      ds'.node_coordinates = some [[((0 : Rat), (0 : Rat), (0 : Rat))]] ∧
      ds'.node_number = some [[1]] ∧
      ds'.edge_indices = none ∧
      ds'.edge_attributes = none ∧
      "WARNING:kgcnn: Can not load sdf-file for dataset" ∈ ds'.warnings :=
  read_in_memory_missing_sdf ⟨[[⟨"H", (0, 0, 0)⟩]], none⟩ [[1]] rfl (by rfl)

/-! ### `QMDataset.prepare_data` (`kgcnn/data/qm.py` lines 70-91) -/

/-- The disk state `prepare_data` interacts with: the raw xyz file and the
derived `<name>.sdf` cache (`none` when `os.path.exists` is false). -/
structure QMDiskState where
  xyzRaw : List String
  molFile : Option (List String)

/-- The observable steps a `prepare_data` call performs. -/
inductive PrepAction where
  /-- the `INFO:kgcnn: Found rdkit ... of pre-computed structures.` log -/
  | logFoundExisting
  /-- `read_xyz_file(filepath)` -/
  | parseXyz
  /-- `self._make_mol_list(xyz_list)` (xyz → mol-block conversion) -/
  | convertMol
  /-- `write_mol_block_list_to_sdf(...)` -/
  | writeMol
deriving DecidableEq, Repr

/-- `QMDataset.prepare_data`: if the sdf cache exists and `overwrite` is
false, log and return self; otherwise parse the xyz file, convert it to
mol blocks and write the sdf cache.  The conversion pipeline
(`read_xyz_file`, `_make_mol_list`, `write_mol_block_list_to_sdf` — not
among the given sources) is abstracted as the function `conv`. -/
def prepare_data (conv : List String → List String) (disk : QMDiskState)
    (overwrite : Bool) : QMDiskState × List PrepAction :=
  if disk.molFile.isSome && !overwrite then
    (disk, [PrepAction.logFoundExisting])
  else
    let xyz_list := disk.xyzRaw
    let mb := conv xyz_list
    ({ disk with molFile := some mb },
     [PrepAction.parseXyz, PrepAction.convertMol, PrepAction.writeMol])

/-- C9: after any first `prepare_data` call with `overwrite=False`, a second
call with `overwrite=False` returns the disk state unchanged (the cached sdf
file in particular) and its only action is the info log — no parse,
conversion or write ever happens again. -/
theorem prepare_data_idempotent (conv : List String → List String)
    (disk : QMDiskState) :
    prepare_data conv (prepare_data conv disk false).1 false
      = ((prepare_data conv disk false).1, [PrepAction.logFoundExisting]) := by
  unfold prepare_data
  by_cases h : disk.molFile.isSome <;> simp [h]

/-! ### `deserialize` (`kgcnn/data/serial.py`) -/

/-- The static registry `global_dataset_register` (serial.py lines 13-17);
for resolution only the class names matter. -/
def global_dataset_register : List String :=
  ["MoleculeNetDataset", "QMDataset", "GraphTUDataset"]

/-- A dataset descriptor dict: the mandatory `"class_name"` key, the
optional `"config"` key, and the optional `"methods"` key — a list of
`{method_name: kwargs}` dicts, each iterated via `.items()`. -/
structure Descriptor where
  class_name : String
  config : Option Dict
  methods : Option (List (List (String × Dict)))

/-- The argument of `deserialize`: a descriptor dict, a bare class-name
string, or any other Python object (e.g. an already-constructed dataset
instance), represented by an opaque token. -/
inductive DSInput where
  | dict (d : Descriptor)
  | str (s : String)
  | other (token : Nat)

/-- Environment for dynamic resolution.  Modelled from the spec:
`importlib.import_module("kgcnn.data.datasets.<name>")` followed by
`getattr` is "a dynamic lookup against a conventional per-dataset-name
location" (§4.3); `dynamicClasses name = none` is the
`ModuleNotFoundError` case.  `classMethods c` lists the method names the
resolved class `c` has (`hasattr`). -/
structure SerialEnv where
  dynamicClasses : String → Option Unit
  classMethods : String → List String

/-- A constructed dataset instance: resolved class name, constructor
kwargs, the dynamically dispatched method calls in order, and the soft
errors logged via `ds_instance.error` (modelled from the spec: "Unknown
method names are reported as a soft error (logged)"; the `error` method
comes from the dataset base class, which is not among the given
sources). -/
structure DSInstance where
  className : String
  config : Dict
  called : List (String × Dict)
  errorsLogged : List String

/-- Result of `deserialize`: a dataset instance, or the argument handed
back unchanged. -/
inductive DSResult where
  | dataset (inst : DSInstance)
  | passthrough (token : Nat)

/-- The one exception `deserialize` itself raises. -/
inductive DSError where
  | notImplemented (msg : String)

/-- One iteration of the method loop (serial.py lines 64-68): dispatch the
method if the instance has it, otherwise log a soft error. -/
def methodStep (avail : List String) (i : DSInstance) (mk : String × Dict) :
    DSInstance :=
  if avail.contains mk.1 then { i with called := i.called ++ [mk] }
  else { i with errorsLogged := i.errorsLogged ++
    ["Dataset class does not have property " ++ mk.1] }

/-- The method-invocation loop of `deserialize` (serial.py lines 61-68):
for each `{method: kwargs}` item, for each of its pairs, one
`methodStep`. -/
def runMethods (avail : List String) (inst : DSInstance)
    (items : List (List (String × Dict))) : DSInstance :=
  items.foldl (fun i item => item.foldl (methodStep avail) i) inst

/-- `deserialize` restricted to descriptor dicts (serial.py lines 42-70):
resolve the class name against the static registry, then against the
dynamic location; raise `NotImplementedError` if both fail; instantiate
with the config and run the method list. -/
def deserializeDict (env : SerialEnv) (d : Descriptor) :
    List String × Except DSError DSResult :=
  let resolved : Except DSError String :=
    if global_dataset_register.contains d.class_name then
      Except.ok d.class_name
    else match env.dynamicClasses d.class_name with
      | some _ => Except.ok d.class_name
      | none => Except.error (DSError.notImplemented
          ("Unknown identifier " ++ d.class_name ++
           ", which is not in the sub-classed modules in kgcnn.data.datasets"))
  match resolved with
  | Except.error e => ([], Except.error e)
  | Except.ok cname =>
      let inst : DSInstance := ⟨cname, d.config.getD [], [], []⟩
      let final := match d.methods with
        | none => inst
        | some items => runMethods (env.classMethods cname) inst items
      ([], Except.ok (DSResult.dataset final))

/-- `deserialize` from serial.py lines 21-70.  The first component of the
result collects the module-logger warnings. -/
def deserialize (env : SerialEnv) (input : DSInput) :
    List String × Except DSError DSResult :=
  match input with
  | DSInput.other token =>
      (["Can not deserialize dataset " ++ toString token ++ "."],
       Except.ok (DSResult.passthrough token))
  | DSInput.str s => deserializeDict env ⟨s, some [], none⟩
  | DSInput.dict d => deserializeDict env d

theorem foldl_methodStep_spec (avail : List String) :
    ∀ (l : List (String × Dict)) (inst : DSInstance),
      (l.foldl (methodStep avail) inst).called
          = inst.called ++ l.filter (fun mk => avail.contains mk.1) ∧
      (l.foldl (methodStep avail) inst).errorsLogged
          = inst.errorsLogged ++ (l.filter (fun mk => !avail.contains mk.1)).map
              (fun mk => "Dataset class does not have property " ++ mk.1) := by
  intro l
  induction l with
  | nil => intro inst; simp
  | cons mk rest ih =>
      intro inst
      rw [List.foldl_cons]
      cases hc : avail.contains mk.1 with
      | true =>
          have hmem : mk.1 ∈ avail := by simpa using hc
          have hstep : methodStep avail inst mk
              = { inst with called := inst.called ++ [mk] } := by
            simp [methodStep, hc, hmem]
          have hih := ih { inst with called := inst.called ++ [mk] }
          rw [hstep]
          exact ⟨by rw [hih.1]; simp [List.filter_cons, hc, hmem],
            by rw [hih.2]; simp [List.filter_cons, hc, hmem]⟩
      | false =>
          have hmem : mk.1 ∉ avail := by simpa using hc
          have hstep : methodStep avail inst mk
              = { inst with errorsLogged := inst.errorsLogged ++
                  ["Dataset class does not have property " ++ mk.1] } := by
            simp [methodStep, hc, hmem]
          have hih := ih { inst with errorsLogged := inst.errorsLogged ++
            ["Dataset class does not have property " ++ mk.1] }
          rw [hstep]
          exact ⟨by rw [hih.1]; simp [List.filter_cons, hc, hmem],
            by rw [hih.2]; simp [List.filter_cons, hc, hmem]⟩

theorem runMethods_spec (avail : List String)
    (items : List (List (String × Dict))) (inst : DSInstance) :
    (runMethods avail inst items).called
        = inst.called ++ items.flatten.filter (fun mk => avail.contains mk.1) ∧
    (runMethods avail inst items).errorsLogged
        = inst.errorsLogged ++
          (items.flatten.filter (fun mk => !avail.contains mk.1)).map
            (fun mk => "Dataset class does not have property " ++ mk.1) := by
  induction items generalizing inst with
  | nil => simp [runMethods]
  | cons item rest ih =>
      have hstep := foldl_methodStep_spec avail item inst
      have hrest := ih (item.foldl (methodStep avail) inst)
      simp only [runMethods, List.foldl_cons] at hrest ⊢
      rw [hrest.1, hrest.2, hstep.1, hstep.2]
      simp [List.flatten, List.filter_append]

/-- C2: when the descriptor's class name resolves and its `methods` list
contains an entry naming a method the instance does not have, `deserialize`
still returns an instance (the bad entry only logs a soft error), the
entries after the bad one are still processed — the known ones are invoked
and the unknown ones are error-logged. -/
theorem deserialize_unknown_method_soft (env : SerialEnv) (d : Descriptor)
    (pre post : List (List (String × Dict))) (m : String) (kw : Dict)
    (hres : global_dataset_register.contains d.class_name = true ∨
      (env.dynamicClasses d.class_name).isSome)
    (hm : d.methods = some (pre ++ [[(m, kw)]] ++ post))
    (hunknown : (env.classMethods d.class_name).contains m = false) :
    ∃ inst, deserialize env (DSInput.dict d)
        = ([], Except.ok (DSResult.dataset inst)) ∧
      ("Dataset class does not have property " ++ m) ∈ inst.errorsLogged ∧
      (∀ mk ∈ post.flatten,
        (env.classMethods d.class_name).contains mk.1 = true →
          mk ∈ inst.called) ∧
      (∀ mk ∈ post.flatten,
        (env.classMethods d.class_name).contains mk.1 = false →
          ("Dataset class does not have property " ++ mk.1)
            ∈ inst.errorsLogged) := by
  have hrun := runMethods_spec (env.classMethods d.class_name)
    (pre ++ [[(m, kw)]] ++ post) ⟨d.class_name, d.config.getD [], [], []⟩
  set inst := runMethods (env.classMethods d.class_name)
    ⟨d.class_name, d.config.getD [], [], []⟩ (pre ++ [[(m, kw)]] ++ post)
    with hinst
  have hjoin : (pre ++ [[(m, kw)]] ++ post).flatten
      = pre.flatten ++ [(m, kw)] ++ post.flatten := by
    simp
  have hcall : deserialize env (DSInput.dict d)
      = ([], Except.ok (DSResult.dataset inst)) := by
    show deserializeDict env d = _
    unfold deserializeDict
    by_cases hmem : d.class_name ∈ global_dataset_register
    · simp [hmem, hm, hinst]
    · rcases hres with h | h
      · exact absurd (by simpa using h) hmem
      · rcases Option.isSome_iff_exists.mp h with ⟨u, hu⟩
        simp [hmem, hu, hm, hinst]
  refine ⟨inst, hcall, ?_, ?_, ?_⟩
  · rw [hrun.2, hjoin]
    simp only [List.filter_append, List.map_append, List.mem_append,
      List.nil_append]
    refine Or.inl (Or.inr ?_)
    have hq : ((m, kw) : String × Dict) ∈ List.filter
        (fun mk => !(env.classMethods d.class_name).contains mk.1) [(m, kw)] :=
      List.mem_filter.mpr ⟨by simp, by simpa using hunknown⟩
    exact List.mem_map.mpr ⟨(m, kw), hq, rfl⟩
  · intro mk hmk hknown
    rw [hrun.1, hjoin]
    simp only [List.filter_append, List.mem_append, List.nil_append]
    exact Or.inr (List.mem_filter.mpr ⟨hmk, by simpa using hknown⟩)
  · intro mk hmk hunk
    rw [hrun.2, hjoin]
    simp only [List.filter_append, List.map_append, List.mem_append,
      List.nil_append]
    refine Or.inr (List.mem_map.mpr ⟨mk, List.mem_filter.mpr ⟨hmk, ?_⟩, rfl⟩)
    simpa using hunk

/-- Instantiation of `deserialize_unknown_method_soft`: a `QMDataset`
descriptor whose method list is `[{bogus: {}}, {prepare_data: {}}]` against
a class having only `prepare_data`. -/
theorem deserialize_unknown_method_soft_witness :
    ∃ inst, deserialize
        ⟨fun _ => none, fun _ => ["prepare_data", "read_in_memory"]⟩
        (DSInput.dict ⟨"QMDataset", none,
          some [[("bogus", [])], [("prepare_data", [])]]⟩)
        = ([], Except.ok (DSResult.dataset inst)) ∧
      ("Dataset class does not have property " ++ "bogus") ∈ inst.errorsLogged ∧
      (∀ mk ∈ ([[("prepare_data", [])]] :
          List (List (String × Dict))).flatten,
        (["prepare_data", "read_in_memory"].contains mk.1) = true →
          mk ∈ inst.called) ∧
      (∀ mk ∈ ([[("prepare_data", [])]] :
          List (List (String × Dict))).flatten,
        (["prepare_data", "read_in_memory"].contains mk.1) = false →
          ("Dataset class does not have property " ++ mk.1)
            ∈ inst.errorsLogged) :=
  deserialize_unknown_method_soft
    ⟨fun _ => none, fun _ => ["prepare_data", "read_in_memory"]⟩
    ⟨"QMDataset", none, some [[("bogus", [])], [("prepare_data", [])]]⟩
    [] [[("prepare_data", [])]] "bogus" []
    (Or.inl (by decide)) rfl (by decide)

/-- C3: when the class name is in neither the static registry nor the
dynamic module location, `deserialize` raises `NotImplementedError` and the
message contains the offending class name. -/
theorem deserialize_unresolvable_class (env : SerialEnv) (d : Descriptor)
    (hreg : global_dataset_register.contains d.class_name = false)
    (hdyn : env.dynamicClasses d.class_name = none) :
    ∃ msg, deserialize env (DSInput.dict d)
        = ([], Except.error (DSError.notImplemented msg)) ∧
      ∃ p q, msg = p ++ d.class_name ++ q := by
  refine ⟨"Unknown identifier " ++ d.class_name ++
    ", which is not in the sub-classed modules in kgcnn.data.datasets",
    ?_, "Unknown identifier ",
    ", which is not in the sub-classed modules in kgcnn.data.datasets", rfl⟩
  show deserializeDict env d = _
  unfold deserializeDict
  have hreg' : d.class_name ∉ global_dataset_register := by simpa using hreg
  simp [hreg', hdyn]

/-- Instantiation of `deserialize_unresolvable_class` at the unknown class
name `FooDataset` in an empty dynamic environment. -/
theorem deserialize_unresolvable_class_witness :
    ∃ msg, deserialize ⟨fun _ => none, fun _ => []⟩
        (DSInput.dict ⟨"FooDataset", none, none⟩)
        = ([], Except.error (DSError.notImplemented msg)) ∧
      ∃ p q, msg = p ++ "FooDataset" ++ q :=
  deserialize_unresolvable_class ⟨fun _ => none, fun _ => []⟩
    ⟨"FooDataset", none, none⟩ (by decide) rfl

/-- C10: an argument that is neither a dict nor a string is handed back
unchanged, with a logged warning and no exception and no resolution
attempt. -/
theorem deserialize_passthrough (env : SerialEnv) (token : Nat) :
    deserialize env (DSInput.other token)
      = (["Can not deserialize dataset " ++ toString token ++ "."],
         Except.ok (DSResult.passthrough token)) := rfl

/-! ### Embedding helpers of the model builders (`kgcnn/ops/models.py`,
used by `make_megnet` in `kgcnn/literature/Megnet.py` lines 109-111) -/

/-- A symbolic layer-graph tensor: one of the `ks.layers.Input` tensors, or
the output of `ks.layers.Embedding(**args)` applied to a tensor. -/
inductive LayerTensor where
  | input (name : String)
  | embedding (args : Dict) (inp : LayerTensor)

/-- An input shape without the batch dimension; `none` entries are
unspecified dimensions (`None` in the Python shape tuple). -/
abbrev Shape := List (Option Nat)

/-- `generate_node_embedding` (models.py lines 4-19): wrap the input in an
embedding layer iff the node shape has rank 1 (`len(input_node_shape) == 1`),
else pass the tensor through. -/
def generate_node_embedding (node_input : LayerTensor)
    (input_node_shape : Shape) (embedding_args : Dict) : LayerTensor :=
  if input_node_shape.length = 1 then
    LayerTensor.embedding embedding_args node_input
  else node_input

/-- `generate_edge_embedding` (models.py lines 22-37): same rank-1 test on
the edge shape. -/
def generate_edge_embedding (edge_input : LayerTensor)
    (input_edge_shape : Shape) (embedding_args : Dict) : LayerTensor :=
  if input_edge_shape.length = 1 then
    LayerTensor.embedding embedding_args edge_input
  else edge_input

/-- `generate_state_embedding` (models.py lines 40-55): the state input is
wrapped iff the state shape has rank 0 (`len(input_state_shape) == 0`). -/
def generate_state_embedding (env_input : LayerTensor)
    (input_state_shape : Shape) (embedding_args : Dict) : LayerTensor :=
  if input_state_shape.length = 0 then
    LayerTensor.embedding embedding_args env_input
  else env_input

/-- `out` is `inp` with exactly one embedding layer inserted on top. -/
def insertsEmbedding (out inp : LayerTensor) : Prop :=
  ∃ args, out = LayerTensor.embedding args inp

theorem embedding_ne_self (t : LayerTensor) :
    ∀ args, LayerTensor.embedding args t ≠ t := by
  induction t with
  | input n => intro args h; exact LayerTensor.noConfusion h
  | embedding a' i ih =>
      intro args h
      injection h with h1 h2
      exact ih a' h2

theorem not_insertsEmbedding_self (t : LayerTensor) :
    ¬ insertsEmbedding t t := by
  rintro ⟨args, h⟩
  exact embedding_ne_self t args h.symm

theorem insertsEmbedding_ite (t : LayerTensor) (c : Prop) [Decidable c]
    (args : Dict) :
    (insertsEmbedding (if c then LayerTensor.embedding args t else t) t ↔ c) ∧
    ((if c then LayerTensor.embedding args t else t) = t ∨
      insertsEmbedding (if c then LayerTensor.embedding args t else t) t) := by
  by_cases h : c
  · rw [if_pos h]
    exact ⟨⟨fun _ => h, fun _ => ⟨args, rfl⟩⟩, Or.inr ⟨args, rfl⟩⟩
  · rw [if_neg h]
    exact ⟨⟨fun hie => absurd hie (not_insertsEmbedding_self t),
      fun hc => absurd hc h⟩, Or.inl rfl⟩

/-- C6, as stated, is false for the graph-state input: with the rank-1
state shape `(5,)`, `generate_state_embedding` inserts no embedding layer
(models.py line 51 tests rank 0, not rank 1). -/
theorem generate_state_embedding_rank1_counterexample :
    ¬ (insertsEmbedding
        (generate_state_embedding (LayerTensor.input "state_input") [some 5] [])
        (LayerTensor.input "state_input") ↔
      ([some 5] : Shape).length = 1) := by
  intro h
  have h1 : generate_state_embedding (LayerTensor.input "state_input")
      [some 5] [] = LayerTensor.input "state_input" := rfl
  have h2 := h.mpr rfl
  rw [h1] at h2
  exact not_insertsEmbedding_self _ h2

/-- C6 (amended): the node and edge embedding helpers insert an embedding
layer iff their input shape has rank 1, while the graph-state helper
inserts one iff the state shape has rank 0; in every other case the input
tensor is returned unchanged. -/
theorem generate_embedding_rank_conditions (t : LayerTensor) (shape : Shape)
    (args : Dict) :
    (insertsEmbedding (generate_node_embedding t shape args) t ↔
      shape.length = 1) ∧
    (insertsEmbedding (generate_edge_embedding t shape args) t ↔
      shape.length = 1) ∧
    (insertsEmbedding (generate_state_embedding t shape args) t ↔
      shape.length = 0) ∧
    (generate_node_embedding t shape args = t ∨
      insertsEmbedding (generate_node_embedding t shape args) t) ∧
    (generate_edge_embedding t shape args = t ∨
      insertsEmbedding (generate_edge_embedding t shape args) t) ∧
    (generate_state_embedding t shape args = t ∨
      insertsEmbedding (generate_state_embedding t shape args) t) := by
  have hn := insertsEmbedding_ite t (shape.length = 1) args
  have hs := insertsEmbedding_ite t (shape.length = 0) args
  exact ⟨hn.1, hn.1, hs.1, hn.2, hn.2, hs.2⟩

end KGCNN
